import Mathlib

/- Verification development for the PicoGo robot controller loop
   (pico-go-code/main.py).  The command dispatch loop, the speed preset
   model and the telemetry check are embedded as executable Lean
   definitions.  Calls to the external collaborators (drive motors, uart,
   pixel strip, buzzer, led, the K2 relay pin and the sleep primitive)
   are recorded as an explicit effect trace. -/

/-- Observable effects of one loop iteration: uart writes, collaborator
calls (motors, buzzer, led, pixel strip, K2 pin, sleeps), the telemetry
status write (carrying the computed percentage, voltage and temperature)
and the console error print of the except handler. -/
inductive Eff where
  | uartWrite : String → Eff
  | motorForward : Nat → Eff
  | motorBackward : Nat → Eff
  | motorLeft : Nat → Eff
  | motorRight : Nat → Eff
  | motorStop : Eff
  | buzVal : Nat → Eff
  | ledVal : Nat → Eff
  | pixelsSet : Nat → Nat × Nat × Nat → Eff
  | pixelsShow : Eff
  | k2InitOut : Eff
  | k2Val : Nat → Eff
  | k2InitIn : Eff
  | sleepSec : Nat → Eff
  | teleWrite : ℚ → ℚ → ℚ → Eff
  | printErr : Eff
  deriving DecidableEq

/-- Mutable controller state: the speed preset variable (main.py line 48),
the buzzer and led pin values, the K2 pin mode and value (pressed means
the pin is configured as an output driven low), and the 4 strip pixels. -/
structure RobotState where
  speed : Nat
  buz : Nat
  ledv : Nat
  k2isOut : Bool
  k2val : Nat
  pixels : List (Nat × Nat × Nat)
  deriving DecidableEq

/-- A decoded inbound JSON object, restricted to the recognized keys
(main.py lines 58 to 158); a missing key is none. -/
structure Msg where
  forward : Option String
  backward : Option String
  left : Option String
  right : Option String
  low : Option String
  medium : Option String
  high : Option String
  bz : Option String
  led : Option String
  rgb : Option String
  toy : Option String
  toyPulse : Option String
  deriving DecidableEq

def emptyMsg : Msg :=
  ⟨none, none, none, none, none, none, none, none, none, none, none, none⟩

/- Acknowledgement strings written by main.py (braces escaped as x7b, x7d). -/

def fwdAck : String := "\x7b\"State\":\"Forward\"\x7d"

def bwdAck : String := "\x7b\"State\":\"Backward\"\x7d"

def leftAck : String := "\x7b\"State\":\"Left\"\x7d"

def rightAck : String := "\x7b\"State\":\"Right\"\x7d"

def stopAck : String := "\x7b\"State\":\"Stop\"\x7d"

def lowAck : String := "\x7b\"State\":\"Low\"\x7d"

def mediumAck : String := "\x7b\"State\":\"Medium\"\x7d"

def highAck : String := "\x7b\"State\":\"High\"\x7d"

def bzOnAck : String := "\x7b\"BZ\":\"ON\"\x7d"

def bzOnState : String := "\x7b\"State\":\"BZ:ON\"\x7d"

def bzOffAck : String := "\x7b\"BZ\":\"OFF\"\x7d"

def bzOffState : String := "\x7b\"State\":\"BZ:OFF\"\x7d"

def ledOnAck : String := "\x7b\"LED\":\"ON\"\x7d"

def ledOnState : String := "\x7b\"State\":\"LED:ON\"\x7d"

def ledOffAck : String := "\x7b\"LED\":\"OFF\"\x7d"

def ledOffState : String := "\x7b\"State\":\"LED:OFF\"\x7d"

/-- Start of every RGB acknowledgement string (main.py line 143). -/
def rgbAckHead : String := "\x7b\"State\":\"RGB:("

/-- RGB acknowledgement: the original value text wrapped in parentheses
(main.py line 143 concatenates a literal open paren, the value, and a
literal close paren). -/
def rgbAck (v : String) : String := rgbAckHead ++ v ++ ")\"\x7d"

def pressInfo : String :=
  "\x7b\"State\":\"[INFO] Simulating button press (connecting K2 to GND)\"\x7d"

def releaseInfo : String :=
  "\x7b\"State\":\"[INFO] Releasing button (disconnecting K2)\"\x7d"

def toyOnAck : String := "\x7b\"ToyGPIO15\":\"ON\"\x7d"

def toyOffAck : String := "\x7b\"ToyGPIO15\":\"OFF\"\x7d"

def pulseStartInfo : String := "\x7b\"State\":\"[SETUP] Starting toy pulse sequence\"\x7d"

def pulseDoneInfo : String := "\x7b\"State\":\"[DONE] Cycle complete\"\x7d"

/-- press_button (main.py lines 23 to 26): write the info string, then
configure K2 as an output and drive it low. -/
def press_button (st : RobotState) : RobotState × List Eff :=
  ({ st with k2isOut := true, k2val := 0 },
   [Eff.uartWrite pressInfo, Eff.k2InitOut, Eff.k2Val 0])

/-- release_button (main.py lines 28 to 30): write the info string, then
reconfigure K2 as an input (high impedance, released). -/
def release_button (st : RobotState) : RobotState × List Eff :=
  ({ st with k2isOut := false },
   [Eff.uartWrite releaseInfo, Eff.k2InitIn])

/-- Startup state (main.py lines 12 to 48): led on, buzzer off, relay
released by the initial release_button call, strip blanked, speed 50. -/
def initState : RobotState :=
  { speed := 50, buz := 0, ledv := 1, k2isOut := false, k2val := 0,
    pixels := [(0, 0, 0), (0, 0, 0), (0, 0, 0), (0, 0, 0)] }

/-- Drop leading and trailing spaces of a character list. -/
def trimChars (cs : List Char) : List Char :=
  ((cs.dropWhile (fun c => c = ' ')).reverse.dropWhile (fun c => c = ' ')).reverse

/-- Split a character list at the commas. -/
def splitCommas : List Char → List (List Char)
  | [] => [[]]
  | c :: rest =>
    match splitCommas rest with
    | [] => [[]]
    | g :: gs => if c = ',' then [] :: g :: gs else (c :: g) :: gs

/-- Read a nonempty all-digit character list as a natural number; a
leading zero on a multi-digit numeral is rejected, as in a Python 3
decimal integer literal. -/
def digitsToNat? (cs : List Char) : Option Nat :=
  if cs.isEmpty then none
  else if 1 < cs.length ∧ cs.head? = some '0' then none
  else if cs.all Char.isDigit then
    some (cs.foldl (fun n c => 10 * n + (c.toNat - 48)) 0)
  else none

/-- Decoding of the RGB value string by tuple(eval(cmd)) in main.py line
137, on the success cases the development relies on: a literal 3-element
tuple of decimal integer literals, with or without surrounding
parentheses and with optional spaces, exactly where eval returns the same
triple.  Every other text counts as a decode failure in the model; the
theorems that reason about failures only quantify over the certified
failing set evalRaises below, on which eval provably raises as well. -/
def parseRGB (s : String) : Option (Nat × Nat × Nat) :=
  let t := trimChars s.data
  let core :=
    if t.head? = some '(' ∧ t.getLast? = some ')' then t.tail.dropLast else t
  match (splitCommas core).map (fun g => digitsToNat? (trimChars g)) with
  | [some r, some g, some b] => some (r, g, b)
  | _ => none

/-- Number of occurrences of a character in a character list. -/
def parCount (c : Char) (cs : List Char) : Nat :=
  (cs.filter fun d => d = c).length

/-- Concatenate character groups with a comma between adjacent groups;
left inverse of splitCommas. -/
def joinCommas : List (List Char) → List Char
  | [] => []
  | [g] => g
  | g :: gs => g ++ ',' :: joinCommas gs

/-- A certified failing input for tuple(eval(cmd)): the string contains
no quote, hash or backslash character (codes 39, 34, 35, 92), so the
Python tokenizer reads it with no string literal, no comment and no line
continuation, and its parenthesis counts differ, which forces a
SyntaxError from eval before any pixel call or uart write of the RGB
block.  This is a sound under-approximation of the set of inputs on
which line 137 of main.py raises. -/
def evalRaises (s : String) : Bool :=
  (s.data.all fun c => c.toNat ≠ 39 && c.toNat ≠ 34 && c.toNat ≠ 35 && c.toNat ≠ 92) &&
    parCount '(' s.data ≠ parCount ')' s.data

/-- The recognized keys, as an enumeration. -/
inductive Key where
  | forwardK | backwardK | leftK | rightK
  | lowK | mediumK | highK
  | bzK | ledK | rgbK | toyK | pulseK
  deriving DecidableEq

/-- The value stored in the message under a given key. -/
def getVal (m : Msg) : Key → Option String
  | .forwardK => m.forward
  | .backwardK => m.backward
  | .leftK => m.left
  | .rightK => m.right
  | .lowK => m.low
  | .mediumK => m.medium
  | .highK => m.high
  | .bzK => m.bz
  | .ledK => m.led
  | .rgbK => m.rgb
  | .toyK => m.toy
  | .pulseK => m.toyPulse

/-- Forward block (main.py lines 58 to 65). -/
def forwardStep (cmd : Option String) (st : RobotState) : RobotState × List Eff :=
  match cmd with
  | some "Down" => (st, [Eff.motorForward st.speed, Eff.uartWrite fwdAck])
  | some "Up" => (st, [Eff.motorStop, Eff.uartWrite stopAck])
  | _ => (st, [])

/-- Backward block (main.py lines 67 to 74). -/
def backwardStep (cmd : Option String) (st : RobotState) : RobotState × List Eff :=
  match cmd with
  | some "Down" => (st, [Eff.motorBackward st.speed, Eff.uartWrite bwdAck])
  | some "Up" => (st, [Eff.motorStop, Eff.uartWrite stopAck])
  | _ => (st, [])

/-- Left block (main.py lines 76 to 83): fixed magnitude 20. -/
def leftStep (cmd : Option String) (st : RobotState) : RobotState × List Eff :=
  match cmd with
  | some "Down" => (st, [Eff.motorLeft 20, Eff.uartWrite leftAck])
  | some "Up" => (st, [Eff.motorStop, Eff.uartWrite stopAck])
  | _ => (st, [])

/-- Right block (main.py lines 85 to 92): fixed magnitude 20. -/
def rightStep (cmd : Option String) (st : RobotState) : RobotState × List Eff :=
  match cmd with
  | some "Down" => (st, [Eff.motorRight 20, Eff.uartWrite rightAck])
  | some "Up" => (st, [Eff.motorStop, Eff.uartWrite stopAck])
  | _ => (st, [])

/-- Low block (main.py lines 95 to 98): LOW_SPEED is 30. -/
def lowStep (cmd : Option String) (st : RobotState) : RobotState × List Eff :=
  match cmd with
  | some "Down" => ({ st with speed := 30 }, [Eff.uartWrite lowAck])
  | _ => (st, [])

/-- Medium block (main.py lines 100 to 103): MEDIUM_SPEED is 50. -/
def mediumStep (cmd : Option String) (st : RobotState) : RobotState × List Eff :=
  match cmd with
  | some "Down" => ({ st with speed := 50 }, [Eff.uartWrite mediumAck])
  | _ => (st, [])

/-- High block (main.py lines 105 to 108): HIGH_SPEED is 80. -/
def highStep (cmd : Option String) (st : RobotState) : RobotState × List Eff :=
  match cmd with
  | some "Down" => ({ st with speed := 80 }, [Eff.uartWrite highAck])
  | _ => (st, [])

/-- BZ block (main.py lines 111 to 120). -/
def bzStep (cmd : Option String) (st : RobotState) : RobotState × List Eff :=
  match cmd with
  | some "on" =>
    ({ st with buz := 1 }, [Eff.buzVal 1, Eff.uartWrite bzOnAck, Eff.uartWrite bzOnState])
  | some "off" =>
    ({ st with buz := 0 }, [Eff.buzVal 0, Eff.uartWrite bzOffAck, Eff.uartWrite bzOffState])
  | _ => (st, [])

/-- LED block (main.py lines 123 to 132). -/
def ledStep (cmd : Option String) (st : RobotState) : RobotState × List Eff :=
  match cmd with
  | some "on" =>
    ({ st with ledv := 1 }, [Eff.ledVal 1, Eff.uartWrite ledOnAck, Eff.uartWrite ledOnState])
  | some "off" =>
    ({ st with ledv := 0 }, [Eff.ledVal 0, Eff.uartWrite ledOffAck, Eff.uartWrite ledOffState])
  | _ => (st, [])

/-- RGB block (main.py lines 135 to 143).  A value that fails to decode
raises, which aborts the processing of the whole message: this is the
none result. -/
def rgbStep (cmd : Option String) (st : RobotState) : Option (RobotState × List Eff) :=
  match cmd with
  | none => some (st, [])
  | some v =>
    match parseRGB v with
    | none => none
    | some c =>
      some ({ st with pixels := [c, c, c, c] },
        [Eff.pixelsSet 0 c, Eff.pixelsSet 1 c, Eff.pixelsSet 2 c, Eff.pixelsSet 3 c,
         Eff.pixelsShow, Eff.uartWrite (rgbAck v)])

/-- ToyGPIO15 block (main.py lines 146 to 155). -/
def toyStep (cmd : Option String) (st : RobotState) : RobotState × List Eff :=
  match cmd with
  | some "on" =>
    let r := press_button st
    (r.1, r.2 ++ [Eff.uartWrite toyOnAck])
  | some "off" =>
    let r := release_button st
    (r.1, r.2 ++ [Eff.uartWrite toyOffAck])
  | _ => (st, [])

/-- ToyGPIO15Pulse block (main.py lines 157 to 166): start info, release,
sleep 2, press, sleep 2, release, done info. -/
def pulseStep (cmd : Option String) (st : RobotState) : RobotState × List Eff :=
  match cmd with
  | some "pulse" =>
    let r1 := release_button st
    let r2 := press_button r1.1
    let r3 := release_button r2.1
    (r3.1,
      [Eff.uartWrite pulseStartInfo] ++ r1.2 ++ [Eff.sleepSec 2] ++ r2.2 ++
        [Eff.sleepSec 2] ++ r3.2 ++ [Eff.uartWrite pulseDoneInfo])
  | _ => (st, [])

/-- Process one recognized key of the message.  Only the RGB block can
raise, hence the Option result. -/
def stepKey (k : Key) (m : Msg) (st : RobotState) : Option (RobotState × List Eff) :=
  match k with
  | .forwardK => some (forwardStep m.forward st)
  | .backwardK => some (backwardStep m.backward st)
  | .leftK => some (leftStep m.left st)
  | .rightK => some (rightStep m.right st)
  | .lowK => some (lowStep m.low st)
  | .mediumK => some (mediumStep m.medium st)
  | .highK => some (highStep m.high st)
  | .bzK => some (bzStep m.bz st)
  | .ledK => some (ledStep m.led st)
  | .rgbK => rgbStep m.rgb st
  | .toyK => some (toyStep m.toy st)
  | .pulseK => some (pulseStep m.toyPulse st)

/-- The order in which main.py examines the keys (lines 58 to 166). -/
def codeOrder : List Key :=
  [.forwardK, .backwardK, .leftK, .rightK, .lowK, .mediumK, .highK,
   .bzK, .ledK, .rgbK, .toyK, .pulseK]

/-- Process the keys of a message in the given order; a raise aborts the
remaining keys and records failure in the Bool component. -/
def dispatchIn : List Key → Msg → RobotState → RobotState × List Eff × Bool
  | [], _, st => (st, [], true)
  | k :: ks, m, st =>
    match stepKey k m st with
    | none => (st, [], false)
    | some (st2, es) =>
      let r := dispatchIn ks m st2
      (r.1, es ++ r.2.1, r.2.2)

/-- Dispatch of one decoded message, in the source order of main.py. -/
def dispatch (m : Msg) (st : RobotState) : RobotState × List Eff × Bool :=
  dispatchIn codeOrder m st

/-- Process a sequence of messages, each in its own loop iteration (an
aborted message leaves the loop running, the next message is processed
from the state reached at the abort point). -/
def runMsgs : List Msg → RobotState → RobotState × List Eff
  | [], st => (st, [])
  | m :: ms, st =>
    let r := dispatch m st
    let r2 := runMsgs ms r.1
    (r2.1, r.2.1 ++ r2.2)

/- Telemetry (main.py lines 172 to 183), with the floating point
arithmetic embedded over the rationals. -/

/-- Battery voltage from the raw ADC count (main.py line 176):
raw times 3.3 over 65535, times 2. -/
def batteryVoltage (raw : Nat) : ℚ := (raw : ℚ) * (33 / 10) / 65535 * 2

/-- Unclamped battery percentage (main.py line 177):
(v minus 3) times 100 over 1.2. -/
def batteryPercentRaw (raw : Nat) : ℚ :=
  (batteryVoltage raw - 3) * 100 / (12 / 10)

/-- First clamp (main.py line 178): floor at 0. -/
def clampLow (p : ℚ) : ℚ := if p < 0 then 0 else p

/-- Second clamp (main.py line 179): ceiling at 100. -/
def clampHigh (p : ℚ) : ℚ := if p > 100 then 100 else p

/-- Battery percentage as reported: the linear interpolation clamped by
the two sequential if statements of main.py lines 177 to 179. -/
def batteryPercent (raw : Nat) : ℚ := clampHigh (clampLow (batteryPercentRaw raw))

/-- Die temperature from the raw ADC count (main.py lines 174 to 175). -/
def temperature (raw : Nat) : ℚ :=
  27 - ((raw : ℚ) * (33 / 10) / 65535 - 706 / 1000) / (1721 / 1000000)

/-- Telemetry check of one loop iteration (main.py lines 172 to 183):
if more than 3000 ms elapsed since the stored tick t, reset t to now and
write one status message; otherwise do nothing. -/
def teleStep (batRaw tempRaw now t : Nat) : Nat × List Eff :=
  if 3000 < now - t then
    (now, [Eff.teleWrite (batteryPercent batRaw) (batteryVoltage batRaw) (temperature tempRaw)])
  else (t, [])

/-- Loop state: the robot state and the telemetry tick variable t. -/
structure LoopState where
  rob : RobotState
  t : Nat
  deriving DecidableEq

/-- Result of the read plus decode step of one iteration: nothing read,
a decode failure (malformed JSON or a root that is not an object), or a
decoded message. -/
inductive Inbound where
  | idle : Inbound
  | malformed : Inbound
  | msg : Msg → Inbound

/-- One iteration of the main while loop (main.py lines 51 to 183): a
decode failure or a raise inside dispatch is caught by the except handler
and printed to the console; the telemetry check runs in every iteration
regardless. -/
def loopIter (inp : Inbound) (now batRaw tempRaw : Nat) (ls : LoopState) :
    LoopState × List Eff :=
  let d :=
    match inp with
    | .idle => (ls.rob, ([] : List Eff))
    | .malformed => (ls.rob, [Eff.printErr])
    | .msg m =>
      match dispatch m ls.rob with
      | (st2, es, true) => (st2, es)
      | (st2, es, false) => (st2, es ++ [Eff.printErr])
  let r := teleStep batRaw tempRaw now ls.t
  (⟨d.1, r.1⟩, d.2 ++ r.2)

/-- The iteration times at which the telemetry check emits, when the loop
body runs at the given list of tick values with stored tick t0 (the ADC
raws do not influence whether an emission happens). -/
def teleTimes (t0 : Nat) : List Nat → List Nat
  | [] => []
  | n :: ns =>
    let r := teleStep 0 0 n t0
    if r.2.isEmpty then teleTimes r.1 ns else n :: teleTimes r.1 ns

/-- An effect is a uart acknowledgement write. -/
def isUartW : Eff → Bool
  | .uartWrite _ => true
  | _ => false

/-- An effect is a call on one of the actuator collaborators. -/
def isCollab : Eff → Bool
  | .motorForward _ => true
  | .motorBackward _ => true
  | .motorLeft _ => true
  | .motorRight _ => true
  | .motorStop => true
  | .buzVal _ => true
  | .ledVal _ => true
  | .pixelsSet _ _ => true
  | .pixelsShow => true
  | .k2InitOut => true
  | .k2Val _ => true
  | .k2InitIn => true
  | .sleepSec _ => true
  | _ => false

/-- An effect is the telemetry status write. -/
def isTele : Eff → Bool
  | .teleWrite _ _ _ => true
  | _ => false

/-- First list is an initial segment of the second. -/
def listIsPre : List Char → List Char → Bool
  | [], _ => true
  | _ :: _, [] => false
  | c :: cs, d :: ds => c = d && listIsPre cs ds

/-- An effect is an RGB acknowledgement write (a uart write whose text
begins with the RGB State header). -/
def isRgbAckEff : Eff → Bool
  | .uartWrite s => listIsPre rgbAckHead.data s.data
  | _ => false

/-- The four directional keys. -/
inductive Dir where
  | fwd | bwd | lft | rgt
  deriving DecidableEq

/-- The message holding only the given directional key with value Down. -/
def dirDownMsg : Dir → Msg
  | .fwd => { emptyMsg with forward := some "Down" }
  | .bwd => { emptyMsg with backward := some "Down" }
  | .lft => { emptyMsg with left := some "Down" }
  | .rgt => { emptyMsg with right := some "Down" }

/-- The message holding only the given directional key with value Up. -/
def dirUpMsg : Dir → Msg
  | .fwd => { emptyMsg with forward := some "Up" }
  | .bwd => { emptyMsg with backward := some "Up" }
  | .lft => { emptyMsg with left := some "Up" }
  | .rgt => { emptyMsg with right := some "Up" }

/-- The State acknowledgement written for a directional Down. -/
def dirAck : Dir → String
  | .fwd => fwdAck
  | .bwd => bwdAck
  | .lft => leftAck
  | .rgt => rightAck

/-- The drive collaborator call issued for a directional Down: forward
and backward at the given preset speed, left and right at the fixed
magnitude 20. -/
def driveEff : Dir → Nat → Eff
  | .fwd, sp => Eff.motorForward sp
  | .bwd, sp => Eff.motorBackward sp
  | .lft, _ => Eff.motorLeft 20
  | .rgt, _ => Eff.motorRight 20

/-- The three speed presets (main.py lines 44 to 46). -/
inductive Preset where
  | lowP | medP | highP
  deriving DecidableEq

/-- The speed value of a preset: Low 30, Medium 50, High 80. -/
def presetVal : Preset → Nat
  | .lowP => 30
  | .medP => 50
  | .highP => 80

/-- The message holding only the given preset key with value Down. -/
def speedMsg : Preset → Msg
  | .lowP => { emptyMsg with low := some "Down" }
  | .medP => { emptyMsg with medium := some "Down" }
  | .highP => { emptyMsg with high := some "Down" }

/-- The State acknowledgement written for a preset Down. -/
def speedAck : Preset → String
  | .lowP => lowAck
  | .medP => mediumAck
  | .highP => highAck

/-- Claim C1: for every directional key (Forward, Backward, Left, Right),
a Down message followed by an Up message produces exactly one drive
collaborator call then exactly one stop call, with exactly two
acknowledgements, first the direction State and then the Stop State, in
that order; and an Up value issues the stop at any state, regardless of
what was previously driven. -/
theorem directional_down_up_trace (d : Dir) (st stAny : RobotState) :
    runMsgs [dirDownMsg d, dirUpMsg d] st =
      (st, [driveEff d st.speed, Eff.uartWrite (dirAck d),
            Eff.motorStop, Eff.uartWrite stopAck]) ∧
    dispatch (dirUpMsg d) stAny =
      (stAny, [Eff.motorStop, Eff.uartWrite stopAck], true) := by
  cases d <;> exact ⟨rfl, rfl⟩

/-- Claim C10: a Left Down or Right Down message always issues the turn
at magnitude 20, at every state, hence for every current value of the
speed preset. -/
theorem turn_speed_fixed (st : RobotState) :
    dispatch (dirDownMsg Dir.lft) st =
      (st, [Eff.motorLeft 20, Eff.uartWrite leftAck], true) ∧
    dispatch (dirDownMsg Dir.rgt) st =
      (st, [Eff.motorRight 20, Eff.uartWrite rightAck], true) :=
  ⟨rfl, rfl⟩

/-- Claim C6: the pulse command emits exactly five uart messages in
order (start info, release info, press info, release info, done info)
and every pulse sequence finishes with the relay released. -/
theorem pulse_sequence_trace (st : RobotState) :
    ((dispatch { emptyMsg with toyPulse := some "pulse" } st).1).k2isOut = false ∧
    ((dispatch { emptyMsg with toyPulse := some "pulse" } st).2.1).filter isUartW =
      [Eff.uartWrite pulseStartInfo, Eff.uartWrite releaseInfo, Eff.uartWrite pressInfo,
       Eff.uartWrite releaseInfo, Eff.uartWrite pulseDoneInfo] ∧
    (dispatch { emptyMsg with toyPulse := some "pulse" } st).2.2 = true :=
  ⟨rfl, rfl, rfl⟩

/-- Claim C3 counterexample: processing the RGB message with value
(255,0,0) does not emit the acknowledgement the claim states; the single
acknowledgement actually emitted wraps the value text in an extra pair of
parentheses. -/
theorem rgb_ack_double_paren_cex :
    Eff.uartWrite "\x7b\"State\":\"RGB:(255,0,0)\"\x7d" ∉
      (dispatch { emptyMsg with rgb := some "(255,0,0)" } initState).2.1 ∧
    ((dispatch { emptyMsg with rgb := some "(255,0,0)" } initState).2.1).filter isUartW =
      [Eff.uartWrite "\x7b\"State\":\"RGB:((255,0,0))\"\x7d"] := by
  decide

/-- Claim C3 amended: processing the RGB message with the well-formed
value (255,0,0) sets all 4 strip pixels to that color, triggers exactly
one render call, and emits exactly one acknowledgement, whose text is the
State RGB string with the original value text wrapped in parentheses,
giving a doubled pair of parentheses. -/
theorem rgb_command_trace (st : RobotState) :
    dispatch { emptyMsg with rgb := some "(255,0,0)" } st =
      ({ st with pixels := [(255, 0, 0), (255, 0, 0), (255, 0, 0), (255, 0, 0)] },
       [Eff.pixelsSet 0 (255, 0, 0), Eff.pixelsSet 1 (255, 0, 0), Eff.pixelsSet 2 (255, 0, 0),
        Eff.pixelsSet 3 (255, 0, 0), Eff.pixelsShow,
        Eff.uartWrite (rgbAck "(255,0,0)")], true) := by
  rfl

/-- Claim C5: for every raw battery ADC reading the reported battery
percentage lies between 0 and 100, including when the derived voltage is
below the empty threshold or above the full threshold. -/
theorem battery_percent_clamped (raw : Nat) :
    0 ≤ batteryPercent raw ∧ batteryPercent raw ≤ 100 := by
  unfold batteryPercent clampHigh clampLow
  split_ifs <;> constructor <;> linarith

/-- Claim C8: a decode failure of the inbound bytes yields an iteration
with zero acknowledgement writes and zero collaborator calls from the
dispatch part, leaves the state exactly as an idle iteration does (so the
next iteration proceeds normally), and only adds the console error print
to the trace of an idle iteration. -/
theorem malformed_input_no_effects (now batRaw tempRaw : Nat) (ls : LoopState) :
    loopIter Inbound.malformed now batRaw tempRaw ls =
      ((loopIter Inbound.idle now batRaw tempRaw ls).1,
        Eff.printErr :: (loopIter Inbound.idle now batRaw tempRaw ls).2) ∧
    ((loopIter Inbound.malformed now batRaw tempRaw ls).2).filter isUartW = [] ∧
    ((loopIter Inbound.malformed now batRaw tempRaw ls).2).filter isCollab = [] := by
  refine ⟨?_, ?_, ?_⟩ <;>
    (simp only [loopIter]; unfold teleStep; split <;> simp [isUartW, isCollab])

/-- Helper: a key step never changes the stored speed when the message
holds none of the three speed keys. -/
theorem stepKey_speed_eq (m : Msg) (h1 : m.low = none) (h2 : m.medium = none)
    (h3 : m.high = none) (k : Key) (st : RobotState) (r : RobotState × List Eff) :
    stepKey k m st = some r → r.1.speed = st.speed := by
  cases k <;>
    simp only [stepKey, forwardStep.eq_def, backwardStep.eq_def, leftStep.eq_def,
      rightStep.eq_def, lowStep.eq_def, mediumStep.eq_def, highStep.eq_def,
      bzStep.eq_def, ledStep.eq_def, rgbStep.eq_def, toyStep.eq_def, pulseStep.eq_def,
      press_button, release_button, h1, h2, h3] <;>
    (repeat' split) <;> intro h <;> cases h <;> rfl

/-- Helper: dispatch in any key order preserves the stored speed when the
message holds none of the three speed keys. -/
theorem dispatchIn_speed_eq (m : Msg) (h1 : m.low = none) (h2 : m.medium = none)
    (h3 : m.high = none) : ∀ (ks : List Key) (st : RobotState),
    ((dispatchIn ks m st).1).speed = st.speed := by
  intro ks
  induction ks with
  | nil => intro st; rfl
  | cons k ks ih =>
    intro st
    simp only [dispatchIn]
    cases hs : stepKey k m st with
    | none => rfl
    | some r =>
      obtain ⟨st2, es⟩ := r
      show ((dispatchIn ks m st2).1).speed = st.speed
      rw [ih st2]
      exact stepKey_speed_eq m h1 h2 h3 k st (st2, es) hs

/-- Claim C2: after a Low (resp Medium, High) Down message the stored
speed is 30 (resp 50, 80) and a subsequent Forward or Backward Down
drives at exactly that speed; the speed message itself issues no motor
call, so a drive already in progress is unchanged (shown on the two
message run Forward Down then preset Down, whose only motor call uses the
old speed); before any speed command the speed is the default 50 and a
Forward Down drives at 50; and any message without speed keys leaves the
stored speed unchanged. -/
theorem speed_preset_behavior (p : Preset) (st : RobotState) (m : Msg)
    (h1 : m.low = none) (h2 : m.medium = none) (h3 : m.high = none) :
    ((dispatch (speedMsg p) st).1).speed = presetVal p ∧
    (dispatch (speedMsg p) st).2 = ([Eff.uartWrite (speedAck p)], true) ∧
    (dispatch { emptyMsg with forward := some "Down" } ((dispatch (speedMsg p) st).1)).2.1 =
      [Eff.motorForward (presetVal p), Eff.uartWrite fwdAck] ∧
    (dispatch { emptyMsg with backward := some "Down" } ((dispatch (speedMsg p) st).1)).2.1 =
      [Eff.motorBackward (presetVal p), Eff.uartWrite bwdAck] ∧
    initState.speed = 50 ∧
    (dispatch { emptyMsg with forward := some "Down" } initState).2.1 =
      [Eff.motorForward 50, Eff.uartWrite fwdAck] ∧
    (runMsgs [{ emptyMsg with forward := some "Down" }, speedMsg p] st).2 =
      [Eff.motorForward st.speed, Eff.uartWrite fwdAck, Eff.uartWrite (speedAck p)] ∧
    ((dispatch m st).1).speed = st.speed := by
  have hlast := dispatchIn_speed_eq m h1 h2 h3 codeOrder st
  cases p <;> exact ⟨rfl, rfl, rfl, rfl, rfl, rfl, rfl, hlast⟩

/-- Witness for speed_preset_behavior: selecting Low at startup stores
speed 30, and the empty message leaves the stored speed at 50. -/
theorem speed_preset_behavior_witness :
    ((dispatch (speedMsg Preset.lowP) initState).1).speed = presetVal Preset.lowP ∧
    ((dispatch emptyMsg initState).1).speed = initState.speed :=
  ⟨(speed_preset_behavior Preset.lowP initState emptyMsg rfl rfl rfl).1,
   (speed_preset_behavior Preset.lowP initState emptyMsg rfl rfl rfl).2.2.2.2.2.2.2⟩

/-- Helper: a key that is absent from the message is a no-op step. -/
theorem stepKey_absent (m : Msg) (k : Key) (st : RobotState)
    (h : getVal m k = none) : stepKey k m st = some (st, []) := by
  cases k <;>
    simp only [getVal] at h <;>
    simp [stepKey, h, forwardStep.eq_def, backwardStep.eq_def, leftStep.eq_def,
      rightStep.eq_def, lowStep.eq_def, mediumStep.eq_def, highStep.eq_def,
      bzStep.eq_def, ledStep.eq_def, rgbStep.eq_def, toyStep.eq_def, pulseStep.eq_def]

/-- Helper: dispatch only depends on the keys that are present in the
message; the absent keys of the order can be filtered away. -/
theorem dispatchIn_filter_present (m : Msg) :
    ∀ (ks : List Key) (st : RobotState),
    dispatchIn ks m st =
      dispatchIn (ks.filter fun k => (getVal m k).isSome) m st := by
  intro ks
  induction ks with
  | nil => intro st; rfl
  | cons k ks ih =>
    intro st
    cases hv : getVal m k with
    | some s =>
      have hk : (getVal m k).isSome = true := by rw [hv]; rfl
      have hf : List.filter (fun k => (getVal m k).isSome) (k :: ks)
          = k :: List.filter (fun k => (getVal m k).isSome) ks := by
        simp [List.filter_cons, hk]
      rw [hf]
      simp only [dispatchIn]
      cases hs : stepKey k m st with
      | none => rfl
      | some r =>
        obtain ⟨st2, es⟩ := r
        simp only [ih]
    | none =>
      have hk : (getVal m k).isSome = false := by rw [hv]; rfl
      have hf : List.filter (fun k => (getVal m k).isSome) (k :: ks)
          = List.filter (fun k => (getVal m k).isSome) ks := by
        simp [List.filter_cons, hk]
      rw [hf, ← ih]
      simp only [dispatchIn, stepKey_absent m k st hv]
      simp

/-- Claim C7 amended: the dispatcher examines the keys of one message in
the fixed source order of main.py; the outcome is invariant under
reordering whenever the message holds at most one recognized key, but not
in general (see the counterexample, where a directional Down combined
with a speed key drives at the preset that is current at the moment the
directional key is reached). -/
theorem dispatch_order_single_key (m : Msg) (st : RobotState) (ks : List Key)
    (hp : ks.Perm codeOrder)
    (h1 : (codeOrder.filter fun k => (getVal m k).isSome).length ≤ 1) :
    dispatchIn ks m st = dispatch m st := by
  rw [dispatchIn_filter_present m ks st, dispatch, dispatchIn_filter_present m codeOrder st]
  have hpf := hp.filter (fun k => (getVal m k).isSome)
  suffices hs : List.filter (fun k => (getVal m k).isSome) ks
      = List.filter (fun k => (getVal m k).isSome) codeOrder by rw [hs]
  rcases hl : List.filter (fun k => (getVal m k).isSome) codeOrder with _ | ⟨a, rest⟩
  · rw [hl] at hpf
    exact List.perm_nil.mp hpf
  · rw [hl] at hpf h1
    have hrest : rest = [] := by
      cases rest with
      | nil => rfl
      | cons b bs => simp at h1
    subst hrest
    exact List.perm_singleton.mp hpf

/-- Witness for dispatch_order_single_key: processing the single-key
Forward Down message with the key order fully reversed gives the same
outcome as the source order. -/
theorem dispatch_order_single_key_witness :
    dispatchIn codeOrder.reverse { emptyMsg with forward := some "Down" } initState =
      dispatch { emptyMsg with forward := some "Down" } initState :=
  dispatch_order_single_key _ initState _ (List.reverse_perm codeOrder) (by decide)

/-- Claim C7 counterexample: the message holding Forward Down and Low
Down together gives different outcomes when the Low key is processed
first (the drive call is issued at speed 30 instead of 50), so the
outcome of dispatch is not invariant under the processing order of the
keys of one message. -/
theorem dispatch_order_dependent_cex :
    dispatchIn [Key.lowK, Key.forwardK, Key.backwardK, Key.leftK, Key.rightK, Key.mediumK,
        Key.highK, Key.bzK, Key.ledK, Key.rgbK, Key.toyK, Key.pulseK]
      { emptyMsg with forward := some "Down", low := some "Down" } initState ≠
    dispatch { emptyMsg with forward := some "Down", low := some "Down" } initState := by
  decide

/-- Helper: occurrence counts distribute over append. -/
theorem parCount_append (c : Char) (a b : List Char) :
    parCount c (a ++ b) = parCount c a + parCount c b := by
  simp [parCount, List.filter_append]

/-- Helper: the empty list has no occurrences. -/
theorem parCount_nil (c : Char) : parCount c [] = 0 := rfl

/-- Helper: occurrence count of a cons cell. -/
theorem parCount_cons (c d : Char) (l : List Char) :
    parCount c (d :: l) = (if d = c then 1 else 0) + parCount c l := by
  by_cases h : d = c
  · simp [parCount, List.filter_cons, h, Nat.add_comm]
  · simp [parCount, List.filter_cons, h]

/-- Helper: a different head character does not change the count. -/
theorem parCount_cons_ne (c d : Char) (l : List Char) (h : d ≠ c) :
    parCount c (d :: l) = parCount c l := by
  simp [parCount, List.filter_cons, h]

/-- Helper: reversal does not change occurrence counts. -/
theorem parCount_reverse (c : Char) (l : List Char) :
    parCount c l.reverse = parCount c l := by
  simp [parCount, List.filter_reverse]

/-- Helper: dropping leading spaces does not change the count of a
non-space character. -/
theorem parCount_dropWhileSpace (c : Char) (h : c ≠ ' ') (cs : List Char) :
    parCount c (cs.dropWhile fun d => d = ' ') = parCount c cs := by
  induction cs with
  | nil => rfl
  | cons x xs ih =>
    rw [List.dropWhile_cons]
    by_cases hx : x = ' '
    · have hxc : x ≠ c := by rw [hx]; exact fun he => h he.symm
      rw [if_pos (by simp [hx]), ih, parCount_cons_ne c x xs hxc]
    · rw [if_neg (by simp [hx])]

/-- Helper: trimming spaces does not change the count of a non-space
character. -/
theorem parCount_trim (c : Char) (h : c ≠ ' ') (cs : List Char) :
    parCount c (trimChars cs) = parCount c cs := by
  unfold trimChars
  rw [parCount_reverse, parCount_dropWhileSpace c h, parCount_reverse,
    parCount_dropWhileSpace c h]

/-- Helper: splitCommas always returns at least one group. -/
theorem splitCommas_ne_nil (cs : List Char) : splitCommas cs ≠ [] := by
  cases cs with
  | nil => simp [splitCommas]
  | cons c rest =>
    simp only [splitCommas]
    cases h : splitCommas rest with
    | nil => simp
    | cons g gs =>
      by_cases hc : c = ','
      · simp [hc]
      · simp [hc]

/-- Helper: joining the comma groups rebuilds the original list. -/
theorem joinCommas_splitCommas (cs : List Char) :
    joinCommas (splitCommas cs) = cs := by
  induction cs with
  | nil => rfl
  | cons c rest ih =>
    simp only [splitCommas]
    cases h : splitCommas rest with
    | nil => exact absurd h (splitCommas_ne_nil rest)
    | cons g gs =>
      rw [h] at ih
      show joinCommas (if c = ',' then [] :: g :: gs else (c :: g) :: gs) = c :: rest
      by_cases hc : c = ','
      · rw [if_pos hc]
        subst hc
        simp only [joinCommas, List.nil_append]
        rw [ih]
      · rw [if_neg hc]
        cases gs with
        | nil =>
          simp only [joinCommas] at ih ⊢
          rw [ih]
        | cons g2 gs2 =>
          simp only [joinCommas] at ih ⊢
          rw [List.cons_append, ih]

/-- Helper: a numeral accepted by digitsToNat? consists of digits. -/
theorem digitsToNat?_all_digits {cs : List Char} {n : Nat}
    (h : digitsToNat? cs = some n) : cs.all Char.isDigit = true := by
  unfold digitsToNat? at h
  split_ifs at h <;> simp_all

/-- Helper: an all-digit list holds no occurrence of a non-digit
character. -/
theorem notDigit_parCount_zero {cs : List Char} (hall : cs.all Char.isDigit = true)
    {c : Char} (hc : Char.isDigit c = false) : parCount c cs = 0 := by
  have hfil : cs.filter (fun d => d = c) = [] := by
    rw [List.filter_eq_nil_iff]
    intro a ha he
    have hd := List.all_eq_true.mp hall a ha
    rw [decide_eq_true_eq] at he
    rw [he, hc] at hd
    simp at hd
  simp [parCount, hfil]

/-- Helper: a comma group accepted by the numeral reader holds no
occurrence of a non-space non-digit character. -/
theorem group_parCount_zero {g : List Char} {n : Nat}
    (h : digitsToNat? (trimChars g) = some n) {c : Char}
    (hcs : c ≠ ' ') (hc : Char.isDigit c = false) : parCount c g = 0 := by
  rw [← parCount_trim c hcs g]
  exact notDigit_parCount_zero (digitsToNat?_all_digits h) hc

/-- Helper: joining groups that are free of a non-comma character stays
free of it. -/
theorem joinCommas_parCount_zero (c : Char) (hc : c ≠ ',') :
    ∀ gs : List (List Char), (∀ g ∈ gs, parCount c g = 0) →
    parCount c (joinCommas gs) = 0 := by
  intro gs
  induction gs with
  | nil => intro _; rfl
  | cons g gs ih =>
    intro hall
    cases gs with
    | nil => simpa [joinCommas] using hall g (by simp)
    | cons g2 gs2 =>
      simp only [joinCommas]
      rw [parCount_append, parCount_cons_ne c ',' _ (Ne.symm hc),
        hall g (by simp), ih (fun x hx => hall x (by simp [hx]))]

/-- Helper: the triple match of parseRGB succeeds exactly on a mapped
list of three defined numerals. -/
theorem triple_match_some {l : List (Option Nat)} {x : Nat × Nat × Nat}
    (h : (match l with
      | [some r, some g, some b] => some ((r, g, b) : Nat × Nat × Nat)
      | _ => none) = some x) :
    l = [some x.1, some x.2.1, some x.2.2] := by
  rcases l with _ | ⟨_ | na, _ | ⟨_ | nb, _ | ⟨_ | nc, _ | ⟨d, rest⟩⟩⟩⟩ <;>
    cases h <;> rfl

/-- Helper: a character list whose comma groups are all accepted
numerals holds no occurrence of a non-space non-comma non-digit
character. -/
theorem core_parCount_zero (core : List Char) {x : Nat × Nat × Nat}
    (h : ((splitCommas core).map fun g => digitsToNat? (trimChars g)) =
      [some x.1, some x.2.1, some x.2.2])
    {c : Char} (h1 : c ≠ ' ') (h2 : c ≠ ',') (h3 : Char.isDigit c = false) :
    parCount c core = 0 := by
  have hgroups : ∀ g ∈ splitCommas core, ∃ n, digitsToNat? (trimChars g) = some n := by
    intro g hg
    have hmem := List.mem_map_of_mem (fun g => digitsToNat? (trimChars g)) hg
    rw [h] at hmem
    simp only [List.mem_cons, List.not_mem_nil, or_false] at hmem
    rcases hmem with hh | hh | hh <;> exact ⟨_, hh⟩
  rw [← joinCommas_splitCommas core]
  exact joinCommas_parCount_zero c h2 _
    (fun g hg => by obtain ⟨n, hn⟩ := hgroups g hg; exact group_parCount_zero hn h1 h3)

/-- Helper: a successful RGB decode has balanced parentheses, since the
text is a decimal triple with at most one stripped surrounding pair. -/
theorem parseRGB_some_balanced {v : String} {x : Nat × Nat × Nat}
    (h : parseRGB v = some x) :
    parCount '(' v.data = parCount ')' v.data := by
  have hop : ('(' : Char) ≠ ' ' := by decide
  have hcp : (')' : Char) ≠ ' ' := by decide
  have hoc : ('(' : Char) ≠ ',' := by decide
  have hcc : (')' : Char) ≠ ',' := by decide
  have hod : Char.isDigit '(' = false := by decide
  have hcd : Char.isDigit ')' = false := by decide
  simp only [parseRGB] at h
  by_cases hcond : (trimChars v.data).head? = some '(' ∧
      (trimChars v.data).getLast? = some ')'
  · rw [if_pos hcond] at h
    obtain ⟨hh, hl⟩ := hcond
    have hmapeq := triple_match_some h
    have hcore := fun c h1 h2 h3 =>
      core_parCount_zero ((trimChars v.data).tail.dropLast) hmapeq (c := c) h1 h2 h3
    rw [← parCount_trim '(' hop v.data, ← parCount_trim ')' hcp v.data]
    rcases ht : trimChars v.data with _ | ⟨a, t2⟩
    · rw [ht] at hh; cases hh
    · rw [ht] at hh
      simp only [List.head?_cons, Option.some.injEq] at hh
      subst hh
      rcases List.eq_nil_or_concat t2 with h0 | ⟨mid, b, hmid⟩
      · subst h0
        rw [ht] at hl
        simp at hl
      · subst hmid
        rw [ht] at hl
        rw [show ('(' :: mid.concat b) = ('(' :: mid) ++ [b] from by
          simp [List.concat_eq_append]] at hl
        rw [List.getLast?_concat] at hl
        simp only [Option.some.injEq] at hl
        subst hl
        have hcoreq : (trimChars v.data).tail.dropLast = mid := by
          rw [ht]; simp [List.concat_eq_append, List.dropLast_concat]
        have hmidO : parCount '(' mid = 0 := by
          have := hcore '(' hop hoc hod; rw [hcoreq] at this; exact this
        have hmidC : parCount ')' mid = 0 := by
          have := hcore ')' hcp hcc hcd; rw [hcoreq] at this; exact this
        simp only [List.concat_eq_append, parCount_cons, parCount_append, parCount_nil,
          hmidO, hmidC]
        decide
  · rw [if_neg hcond] at h
    have hmapeq := triple_match_some h
    have hcore := fun c h1 h2 h3 =>
      core_parCount_zero (trimChars v.data) hmapeq (c := c) h1 h2 h3
    rw [← parCount_trim '(' hop v.data, ← parCount_trim ')' hcp v.data,
      hcore '(' hop hoc hod, hcore ')' hcp hcc hcd]

/-- Helper: on a certified failing input the model decode fails too. -/
theorem evalRaises_parseRGB {v : String} (h : evalRaises v = true) :
    parseRGB v = none := by
  cases hp : parseRGB v with
  | none => rfl
  | some x =>
    have hbal := parseRGB_some_balanced hp
    unfold evalRaises at h
    simp only [Bool.and_eq_true, decide_eq_true_eq] at h
    exact absurd hbal h.2

/-- Helper: no key handler ever emits the telemetry status write. -/
theorem stepKey_no_tele (k : Key) (m : Msg) (st : RobotState)
    (r : RobotState × List Eff) :
    stepKey k m st = some r → r.2.filter isTele = [] := by
  cases k <;>
    simp only [stepKey, forwardStep.eq_def, backwardStep.eq_def, leftStep.eq_def,
      rightStep.eq_def, lowStep.eq_def, mediumStep.eq_def, highStep.eq_def,
      bzStep.eq_def, ledStep.eq_def, rgbStep.eq_def, toyStep.eq_def, pulseStep.eq_def,
      press_button, release_button] <;>
    (repeat' split) <;> intro h <;> cases h <;> rfl

/-- Helper: no key handler other than the RGB block ever emits an RGB
acknowledgement write. -/
theorem stepKey_no_rgbAck (k : Key) (m : Msg) (st : RobotState)
    (r : RobotState × List Eff) (hk : k ≠ Key.rgbK) :
    stepKey k m st = some r → r.2.filter isRgbAckEff = [] := by
  cases k <;> first
  | exact absurd rfl hk
  | (simp only [stepKey, forwardStep.eq_def, backwardStep.eq_def, leftStep.eq_def,
      rightStep.eq_def, lowStep.eq_def, mediumStep.eq_def, highStep.eq_def,
      bzStep.eq_def, ledStep.eq_def, toyStep.eq_def, pulseStep.eq_def,
      press_button, release_button] <;>
    (repeat' split) <;> intro h <;> cases h <;> rfl)

/-- Helper: no dispatch trace holds a telemetry status write. -/
theorem dispatchIn_no_tele (m : Msg) : ∀ (ks : List Key) (st : RobotState),
    ((dispatchIn ks m st).2.1).filter isTele = [] := by
  intro ks
  induction ks with
  | nil => intro st; rfl
  | cons k ks ih =>
    intro st
    simp only [dispatchIn]
    cases hs : stepKey k m st with
    | none => rfl
    | some r =>
      obtain ⟨st2, es⟩ := r
      show (es ++ (dispatchIn ks m st2).2.1).filter isTele = []
      rw [List.filter_append, stepKey_no_tele k m st (st2, es) hs, ih st2]
      rfl

/-- Helper: when the RGB step of a message raises, no dispatch order
emits an RGB acknowledgement for it. -/
theorem dispatchIn_fail_no_rgbAck (m : Msg)
    (hfail : ∀ s : RobotState, stepKey Key.rgbK m s = none) :
    ∀ (ks : List Key) (st : RobotState),
    ((dispatchIn ks m st).2.1).filter isRgbAckEff = [] := by
  intro ks
  induction ks with
  | nil => intro st; rfl
  | cons k ks ih =>
    intro st
    simp only [dispatchIn]
    by_cases hk : k = Key.rgbK
    · subst hk
      rw [hfail st]
      rfl
    · cases hs : stepKey k m st with
      | none => rfl
      | some r =>
        obtain ⟨st2, es⟩ := r
        show (es ++ (dispatchIn ks m st2).2.1).filter isRgbAckEff = []
        rw [List.filter_append, stepKey_no_rgbAck k m st (st2, es) hk hs, ih st2]
        rfl

/-- Helper: every key step other than the RGB block returns normally. -/
theorem stepKey_ne_rgb_some (k : Key) (m : Msg) (st : RobotState)
    (hk : k ≠ Key.rgbK) : (stepKey k m st).isSome = true := by
  cases k <;> first
  | exact absurd rfl hk
  | rfl

/-- Helper: an order containing the RGB key reports failure when the RGB
step of the message raises. -/
theorem dispatchIn_fail_ok (m : Msg)
    (hfail : ∀ s : RobotState, stepKey Key.rgbK m s = none) :
    ∀ (ks : List Key) (st : RobotState), Key.rgbK ∈ ks →
    (dispatchIn ks m st).2.2 = false := by
  intro ks
  induction ks with
  | nil => intro st hmem; cases hmem
  | cons k ks ih =>
    intro st hmem
    simp only [dispatchIn]
    by_cases hk : k = Key.rgbK
    · subst hk
      rw [hfail st]
    · have hmem2 : Key.rgbK ∈ ks := by
        rcases List.mem_cons.mp hmem with he | he
        · exact absurd he.symm hk
        · exact he
      cases hs : stepKey k m st with
      | none =>
        exact absurd (hs ▸ stepKey_ne_rgb_some k m st hk) (by simp)
      | some r =>
        obtain ⟨st2, es⟩ := r
        show (dispatchIn ks m st2).2.2 = false
        exact ih st2 hmem2

/-- Claim C9: for every inbound message whose RGB value lies in the
certified failing set of the eval decode (evalRaises: no quote, hash or
backslash character and unbalanced parentheses, on which eval raises a
SyntaxError before any effect of the RGB block), processing the message
fails into the except handler: the dispatch reports failure and the
console error print is emitted, no RGB acknowledgement is written for
the failed command, the loop continues with a well-defined state, and
the telemetry check of the iteration is unaffected (same stored tick and
the same telemetry writes as an idle iteration); this holds whatever
other valid recognized keys the failing message also contains. -/
theorem rgb_failure_no_ack (m : Msg) (v : String) (st : RobotState)
    (now batRaw tempRaw : Nat) (ls : LoopState)
    (hm : m.rgb = some v) (hv : evalRaises v = true) :
    (dispatch m st).2.2 = false ∧
    ((dispatch m st).2.1).filter isRgbAckEff = [] ∧
    Eff.printErr ∈ (loopIter (Inbound.msg m) now batRaw tempRaw ls).2 ∧
    ((loopIter (Inbound.msg m) now batRaw tempRaw ls).1).t =
      ((loopIter Inbound.idle now batRaw tempRaw ls).1).t ∧
    ((loopIter (Inbound.msg m) now batRaw tempRaw ls).2).filter isTele =
      ((loopIter Inbound.idle now batRaw tempRaw ls).2).filter isTele := by
  have hp : parseRGB v = none := evalRaises_parseRGB hv
  have hfail : ∀ s : RobotState, stepKey Key.rgbK m s = none := by
    intro s; simp [stepKey, rgbStep, hm, hp]
  have hmem : Key.rgbK ∈ codeOrder := by simp [codeOrder]
  have hok : ∀ s, (dispatch m s).2.2 = false :=
    fun s => dispatchIn_fail_ok m hfail codeOrder s hmem
  refine ⟨hok st, dispatchIn_fail_no_rgbAck m hfail codeOrder st, ?_, rfl, ?_⟩
  · rcases hdd : dispatch m ls.rob with ⟨st2, es, ok⟩
    have hok2 : ok = false := by
      have := hok ls.rob
      rw [hdd] at this
      exact this
    subst hok2
    simp only [loopIter, hdd]
    simp
  · have hno : ((dispatch m ls.rob).2.1).filter isTele = [] :=
      dispatchIn_no_tele m codeOrder ls.rob
    rcases hdd : dispatch m ls.rob with ⟨st2, es, ok⟩
    rw [hdd] at hno
    have hno2 : es.filter isTele = [] := hno
    simp only [loopIter, hdd]
    cases ok <;> simp [List.filter_append, hno2, isTele]

/-- Witness for rgb_failure_no_ack: the truncated RGB value is a
certified failing input, so the message holding it (together with a BZ
key) reports failure and writes no RGB acknowledgement. -/
theorem rgb_failure_no_ack_witness :
    (dispatch { emptyMsg with bz := some "on", rgb := some "(255,0" } initState).2.2 =
      false ∧
    ((dispatch { emptyMsg with bz := some "on", rgb := some "(255,0" }
      initState).2.1).filter isRgbAckEff = [] :=
  ⟨(rgb_failure_no_ack { emptyMsg with bz := some "on", rgb := some "(255,0" }
      "(255,0" initState 0 0 0 ⟨initState, 0⟩ rfl (by decide)).1,
   (rgb_failure_no_ack { emptyMsg with bz := some "on", rgb := some "(255,0" }
      "(255,0" initState 0 0 0 ⟨initState, 0⟩ rfl (by decide)).2.1⟩

/-- Helper: the telemetry emission times form a chain from the stored
tick in which each emission is more than 3000 ms after the previous. -/
theorem teleTimes_chain_from (ts : List Nat) : ∀ t0 : Nat,
    List.Chain (fun a b => 3000 < b - a) t0 (teleTimes t0 ts) := by
  induction ts with
  | nil => intro t0; exact List.Chain.nil
  | cons n ns ih =>
    intro t0
    by_cases hc : 3000 < n - t0
    · have he : teleTimes t0 (n :: ns) = n :: teleTimes n ns := by
        simp [teleTimes, teleStep, hc]
      rw [he]
      exact List.Chain.cons hc (ih n)
    · have he : teleTimes t0 (n :: ns) = teleTimes t0 ns := by
        simp [teleTimes, teleStep, hc]
      rw [he]
      exact ih t0

/-- Helper: an iteration strictly after the interval boundary guarantees
at least one telemetry emission in the run. -/
theorem teleTimes_ne_nil (ts : List Nat) : ∀ t0 n, n ∈ ts → 3000 < n - t0 →
    teleTimes t0 ts ≠ [] := by
  induction ts with
  | nil => intro t0 n hn; cases hn
  | cons m ns ih =>
    intro t0 n hn hgt
    by_cases hc : 3000 < m - t0
    · simp [teleTimes, teleStep, hc]
    · have he : teleTimes t0 (m :: ns) = teleTimes t0 ns := by
        simp [teleTimes, teleStep, hc]
      rw [he]
      rcases List.mem_cons.mp hn with hh | hh
      · subst hh; exact absurd hgt hc
      · exact ih t0 n hh hgt

/-- Claim C4 amended: over any run of loop iterations, consecutive
telemetry emissions are always more than 3000 ms apart (at most one
emission per interval however many iterations fall inside it), and an
emission is guaranteed as soon as some iteration happens strictly after
the interval boundary; an iteration at exactly the boundary (elapsed
exactly 3000 ms) does not emit. -/
theorem telemetry_interval_law (t0 : Nat) (ts : List Nat) :
    List.Chain' (fun a b => 3000 < b - a) (teleTimes t0 ts) ∧
    ((∃ n ∈ ts, 3000 < n - t0) → teleTimes t0 ts ≠ []) := by
  constructor
  · have hch := teleTimes_chain_from ts t0
    cases he : teleTimes t0 ts with
    | nil => exact List.chain'_nil
    | cons a l =>
      rw [he] at hch
      exact (List.chain_cons.mp hch).2
  · rintro ⟨n, hn, hgt⟩
    exact teleTimes_ne_nil ts t0 n hn hgt

/-- Witness for telemetry_interval_law: an iteration 3001 ms after the
stored tick emits. -/
theorem telemetry_interval_law_witness : teleTimes 0 [3001] ≠ [] :=
  (telemetry_interval_law 0 [3001]).2 ⟨3001, by decide, by decide⟩

/-- Claim C4 counterexample: a loop iteration at exactly the interval
boundary, 3000 ms after the stored tick, emits no telemetry, so emission
at the boundary (as opposed to strictly after it) does not happen. -/
theorem telemetry_boundary_cex :
    teleTimes 0 [3000] = [] ∧ 0 + 3000 ≤ 3000 := by decide
